import Mathlib

/-!
# Candidate routes of the interview-board backend

A shallow embedding of `src/routes/candidateRoutes.js` (the three candidate
mutation handlers), `src/middlewares/authMiddleware.js` (`checkAuth`),
`src/config/config.js` (`config.priority`) and the array paths of
`src/models/subject.js`.

Conventions of the embedding

* A handler is a function from the storage state and the outcomes of its
  external calls to an `Outcome`: the storage state afterwards, the ordered
  list of observable effects, and whether the `async` handler function resolved
  or threw.
* Every awaited external call (storage, score recomputation) may reject; the
  rejection is supplied by `Env`, and so is the order in which the members of
  a `Promise.all` settle.
* A write that is still in flight when its `Promise.all` rejects is not ordered
  by the handler: it is recorded as pending, outside the trace.
* ObjectIds are natural numbers; `Env.isValidObjectId` is mongoose's
  `isValidObjectId` on the route parameter.
-/

namespace CandidateRoutes

/-! ## Data model -/

abbrev ObjectId := Nat

/-- A thrown JavaScript value: `new ApiError(status, message, errorCode)` or a
rejection coming out of an external call. -/
inductive Thrown where
  | api (statusCode : Nat) (message : String) (errorCode : String)
  | rejection (tag : Nat)
  deriving DecidableEq, Repr

/-- A Candidate document, with the paths the routes read. `linkedIn` is the
(capitalised) path read by the duplicate check next to `linkedin`. -/
structure Candidate where
  _id : ObjectId
  name : String
  email : String
  mobileNo : String
  linkedin : Option String
  linkedIn : Option String
  resume : Option String
  password : Option String
  skills : List String
  subjects : List ObjectId
  deriving DecidableEq, Repr

/-- An element of an array path of a Subject document: a plain ObjectId or a
sub-document carrying an `id` path. -/
inductive Elem where
  | oid (i : ObjectId)
  | sub (id : ObjectId)
  deriving DecidableEq, Repr

/-- Array paths of a Subject document that the schema declares or that the
candidate routes write to. -/
inductive SubjectPath where
  | applicants
  | experts
  | candidates
  | applications
  deriving DecidableEq, Repr

/-- Paths declared by `subjectSchema` in `src/models/subject.js`. -/
def subjectSchema : SubjectPath → Bool
  | .applicants => true
  | .experts => true
  | .candidates => false
  | .applications => false

/-- A Subject document: its id and the content of each array path. -/
structure Subject where
  _id : ObjectId
  arrays : SubjectPath → List Elem

/-- An Application document (a candidate–subject pair). -/
structure Application where
  candidate : ObjectId
  subject : ObjectId
  deriving DecidableEq, Repr

/-- An Expert document, with the path the bulk deletion resets. -/
structure Expert where
  _id : ObjectId
  applications : List ObjectId
  deriving DecidableEq, Repr

/-- The four collections the candidate routes touch. -/
structure Db where
  candidates : List Candidate
  subjects : List Subject
  applications : List Application
  experts : List Expert

/-! ## Effects -/

/-- The score recomputations imported from `utils/updateScores.js`. -/
inductive Recompute where
  | calculateAllExpertsScoresMultipleSubjects (subjects : List ObjectId)
  | calculateAverageScoresAllExperts
  | calculateSingleCandidateScoreMultipleSubjects (candidateId : ObjectId)
  | calculateAverageRelevancyScoreSingleCandidate (candidateId : ObjectId)
  deriving DecidableEq, Repr

/-- Storage writes issued by the candidate routes. -/
inductive Write where
  | candidateDeleteMany
  | subjectUpdateManySet
  | applicationDeleteMany
  | expertUpdateManySet
  | candidateFindByIdAndDelete (id : ObjectId)
  | subjectUpdateManyPull (subjects : List ObjectId) (id : ObjectId)
  | applicationDeleteManyOf (id : ObjectId)
  | candidateFindByIdAndUpdate (id : ObjectId)
  deriving DecidableEq, Repr

/-- Observable effects of a handler run, in the order they happen. -/
inductive Effect where
  | write (w : Write)
  | respond (status : Nat) (message : String)
  | invoke (r : Recompute)
  | resolved (r : Recompute)
  | rejected (r : Recompute)
  deriving DecidableEq, Repr

/-- The storage writes a DELETE handler issues together inside one
`Promise.all`. -/
inductive CleanupCall where
  | subjectUpdateMany
  | applicationDeleteMany
  | expertUpdateMany
  deriving DecidableEq, Repr

/-- Outcomes of the external calls of one handler run. `none` means the call
resolves, `some e` that it rejects with `e`. `settleRank` is the time at which
a member of a `Promise.all` of writes settles (equal ranks settle in array
order). -/
structure Env where
  isValidObjectId : ObjectId → Bool
  candidateFind : Option Thrown
  candidateDeleteMany : Option Thrown
  subjectUpdateMany : Option Thrown
  applicationDeleteMany : Option Thrown
  expertUpdateMany : Option Thrown
  candidateFindByIdAndDelete : Option Thrown
  candidateFindOne : Option Thrown
  candidateFindByIdAndUpdate : Option Thrown
  recompute : Recompute → Option Thrown
  secondSettlesFirst : Bool
  settleRank : CleanupCall → Nat
  mongooseStrict : Bool
  resume : Option String
  hash : String → String

/-- Result of running a handler (the `async` function given to `safeHandler`).
`trace` holds the effects whose order the handler fixes. `pending` holds the
writes that were still in flight when their `Promise.all` rejected: nothing
awaits them any more, so they commit at some later point that the handler does
not control, possibly after the response and while recomputation runs. `db` is
the storage state once every started write has settled. -/
structure Outcome where
  db : Db
  trace : List Effect
  result : Except Thrown Unit
  pending : List Write

/-! ## Storage operations -/

/-- The projection `.select("-password")`. -/
def selectNoPassword (c : Candidate) : Candidate :=
  { c with password := none }

/-- An update operator applied to one array path of a Subject document. With
mongoose strict mode a path the schema does not declare is dropped from the
update. -/
def updatePath (strict : Bool) (p : SubjectPath) (f : List Elem → List Elem)
    (s : Subject) : Subject :=
  if strict && !subjectSchema p then s
  else { s with arrays := fun q => if q = p then f (s.arrays q) else s.arrays q }

/-- The operator `$pull: { <path>: { id: c } }`: removes the array elements
that are sub-documents whose `id` equals `c`. -/
def pullId (c : ObjectId) (xs : List Elem) : List Elem :=
  xs.filter (fun e => !decide (e = Elem.sub c))

/-- The call `Subject.updateMany({ _id: { $in: subjects } },
{ $pull: { candidates: { id: c } } })`. -/
def subjectUpdateManyPull (strict : Bool) (subjects : List ObjectId) (c : ObjectId)
    (ss : List Subject) : List Subject :=
  ss.map (fun s =>
    if subjects.contains s._id then updatePath strict .candidates (pullId c) s else s)

/-- The call `Subject.updateMany({}, { $set: { applications: [], candidates: [] } })`. -/
def subjectUpdateManySet (strict : Bool) (ss : List Subject) : List Subject :=
  ss.map (fun s =>
    updatePath strict .candidates (fun _ => [])
      (updatePath strict .applications (fun _ => []) s))

/-- The call `Application.deleteMany({ candidate: c })`. -/
def applicationDeleteManyOf (c : ObjectId) (as : List Application) : List Application :=
  as.filter (fun a => !decide (a.candidate = c))

/-- The call `Expert.updateMany({}, { $set: { applications: [] } })`. -/
def expertUpdateManySet (es : List Expert) : List Expert :=
  es.map (fun e => { e with applications := [] })

/-- The lookup `Candidate.findById(id)`. -/
def findById (id : ObjectId) (cs : List Candidate) : Option Candidate :=
  cs.find? (fun c => decide (c._id = id))

/-- Removal of the document `findByIdAndDelete` returns. -/
def deleteById (id : ObjectId) (cs : List Candidate) : List Candidate :=
  cs.eraseP (fun c => decide (c._id = id))

/-! ## Awaiting recomputations -/

/-- The settling event of a recomputation. -/
def settle (env : Env) (r : Recompute) : Effect :=
  match env.recompute r with
  | none => .resolved r
  | some _ => .rejected r

/-- The statement `await r`: the call is started, settles, and a rejection is
thrown. -/
def awaitOne (env : Env) (r : Recompute) : List Effect × Except Thrown Unit :=
  ([.invoke r, settle env r],
    match env.recompute r with
    | none => .ok ()
    | some e => .error e)

/-- The statement `await Promise.all([a, b])`: both calls are started in array
order, they settle in the order the environment decides, and the first
rejection to happen is thrown. -/
def awaitAll (env : Env) (a b : Recompute) : List Effect × Except Thrown Unit :=
  let first := if env.secondSettlesFirst then b else a
  let second := if env.secondSettlesFirst then a else b
  ([.invoke a, .invoke b, settle env first, settle env second],
    match env.recompute first, env.recompute second with
    | some e, _ => .error e
    | none, some e => .error e
    | none, none => .ok ())

/-- Sequencing of two awaited steps: the second runs only when the first did
not throw. -/
def andThen (x : List Effect × Except Thrown Unit)
    (y : List Effect × Except Thrown Unit) : List Effect × Except Thrown Unit :=
  match x.2 with
  | .error e => (x.1, .error e)
  | .ok _ => (x.1 ++ y.1, y.2)

/-- The two awaited statements after the response of both DELETE handlers:
the expert scores of the given subjects, then the expert averages. -/
def deleteRecompute (env : Env) (subjects : List ObjectId) :
    List Effect × Except Thrown Unit :=
  andThen
    (awaitOne env (.calculateAllExpertsScoresMultipleSubjects subjects))
    (awaitOne env .calculateAverageScoresAllExperts)

/-- The outcome the environment gives to a cleanup write. -/
def Env.cleanupOutcome (env : Env) : CleanupCall → Option Thrown
  | .subjectUpdateMany => env.subjectUpdateMany
  | .applicationDeleteMany => env.applicationDeleteMany
  | .expertUpdateMany => env.expertUpdateMany

/-- Insertion of a call into a list ordered by settling time; a call goes
before the calls that settle at the same time or later. -/
def insertByRank (rank : CleanupCall → Nat) (c : CleanupCall) :
    List CleanupCall → List CleanupCall
  | [] => [c]
  | d :: ds => if rank c ≤ rank d then c :: d :: ds else d :: insertByRank rank c ds

/-- The members of a `Promise.all`, given in array order, in the order in which
they settle. -/
def settleOrder (rank : CleanupCall → Nat) : List CleanupCall → List CleanupCall
  | [] => []
  | c :: cs => insertByRank rank c (settleOrder rank cs)

/-- How a `Promise.all` of writes settles: the writes that committed before it
settled, the rejection it throws (that of the first member to reject), and the
writes still in flight at that moment that will commit later. -/
structure Settled where
  committed : List CleanupCall
  thrown : Option Thrown
  pending : List CleanupCall

/-- The statement `await Promise.all(writes)` on the members in settling order:
it resolves when all members have resolved and rejects as soon as one member
rejects, without waiting for the others. -/
def settleAll (env : Env) : List CleanupCall → Settled
  | [] => ⟨[], none, []⟩
  | c :: rest =>
    match env.cleanupOutcome c with
    | some e => ⟨[], some e, rest.filter (fun d => (env.cleanupOutcome d).isNone)⟩
    | none =>
      let r := settleAll env rest
      ⟨c :: r.committed, r.thrown, r.pending⟩

/-- The writes of the `Promise.all` of the single deletion (lines 260 and 261).
Its third member, the removal of the resume file, catches its own errors and
writes nothing to storage. -/
def deleteWrite (candidate : Candidate) : CleanupCall → Option Write
  | .subjectUpdateMany => some (.subjectUpdateManyPull candidate.subjects candidate._id)
  | .applicationDeleteMany => some (.applicationDeleteManyOf candidate._id)
  | .expertUpdateMany => none

/-- The writes of the `Promise.all` of the bulk deletion (lines 118, 128 and
129). Its second member, the removal of the resume folder, catches its own
errors and writes nothing to storage. -/
def bulkWrite : CleanupCall → Option Write
  | .subjectUpdateMany => some .subjectUpdateManySet
  | .applicationDeleteMany => some .applicationDeleteMany
  | .expertUpdateMany => some .expertUpdateManySet

/-- The commits of the given calls, as effects. -/
def commits (toWrite : CleanupCall → Option Write) (cs : List CleanupCall) : List Effect :=
  (cs.filterMap toWrite).map Effect.write

/-! ## DELETE /candidate/:id -/

/-- The handler of `router.route('/:id').delete`. -/
def deleteCandidate (env : Env) (db : Db) (id : ObjectId) : Outcome :=
  if !env.isValidObjectId id then
    ⟨db, [], .error (.api 400 "Invalid candidate ID" "INVALID_ID"), []⟩
  else
    match env.candidateFindByIdAndDelete with
    | some e => ⟨db, [], .error e, []⟩
    | none =>
      match findById id db.candidates with
      | none => ⟨db, [], .error (.api 404 "Candidate not found" "CANDIDATE_NOT_FOUND"), []⟩
      | some doc =>
        let candidate := selectNoPassword doc
        -- try { await Promise.all([...]) } catch { console.error }: a rejection is
        -- logged and the handler goes on while the other members are still in flight
        let subjects :=
          match env.subjectUpdateMany with
          | none => subjectUpdateManyPull env.mongooseStrict candidate.subjects candidate._id
                      db.subjects
          | some _ => db.subjects
        let applications :=
          match env.applicationDeleteMany with
          | none => applicationDeleteManyOf candidate._id db.applications
          | some _ => db.applications
        let settled :=
          settleAll env (settleOrder env.settleRank [.subjectUpdateMany, .applicationDeleteMany])
        let db1 : Db :=
          { db with candidates := deleteById id db.candidates,
                    subjects := subjects, applications := applications }
        let rec1 := deleteRecompute env candidate.subjects
        ⟨db1,
          [.write (.candidateFindByIdAndDelete id)] ++
            commits (deleteWrite candidate) settled.committed ++
            [.respond 200 "Candidate deleted successfully"] ++ rec1.1,
          rec1.2,
          settled.pending.filterMap (deleteWrite candidate)⟩

/-! ## DELETE /candidate/ -/

/-- The expression `candidates.map(c => c.subjects).flat()`. -/
def flatSubjects (candidates : List Candidate) : List ObjectId :=
  (candidates.map (fun c => c.subjects)).flatten

/-- The handler of `router.route('/').delete`. -/
def deleteAllCandidates (env : Env) (db : Db) : Outcome :=
  match env.candidateFind with
  | some e => ⟨db, [], .error e, []⟩
  | none =>
    let candidates := db.candidates.map selectNoPassword
    if candidates.length = 0 then
      ⟨db, [], .error (.api 404 "No candidates found" "NO_CANDIDATES_FOUND"), []⟩
    else
      match env.candidateDeleteMany with
      | some e => ⟨db, [], .error e, []⟩
      | none =>
        -- await Promise.all([Subject.updateMany, rmdir (never rejects),
        --                    Application.deleteMany, Expert.updateMany]): the first
        -- rejection to happen is thrown, before the response
        let subjects :=
          match env.subjectUpdateMany with
          | none => subjectUpdateManySet env.mongooseStrict db.subjects
          | some _ => db.subjects
        let applications :=
          match env.applicationDeleteMany with
          | none => []
          | some _ => db.applications
        let experts :=
          match env.expertUpdateMany with
          | none => expertUpdateManySet db.experts
          | some _ => db.experts
        let settled :=
          settleAll env (settleOrder env.settleRank
            [.subjectUpdateMany, .applicationDeleteMany, .expertUpdateMany])
        let db1 : Db :=
          { candidates := [], subjects := subjects, applications := applications,
            experts := experts }
        match settled.thrown with
        | some e =>
          ⟨db1, [.write .candidateDeleteMany] ++ commits bulkWrite settled.committed,
            .error e, settled.pending.filterMap bulkWrite⟩
        | none =>
          let rec1 := deleteRecompute env (flatSubjects candidates)
          ⟨db1,
            [.write .candidateDeleteMany] ++ commits bulkWrite settled.committed ++
              [.respond 200 "All candidates successfully deleted"] ++ rec1.1,
            rec1.2,
            settled.pending.filterMap bulkWrite⟩

/-! ## PATCH /candidate/:id -/

/-- The object `filteredUpdates`: the entries of the parsed body whose value is
neither `null` nor `undefined`. `others` counts the remaining keys of the
update schema, which the handler passes through untouched. -/
structure Updates where
  name : Option String
  email : Option String
  mobileNo : Option String
  linkedin : Option String
  resumeToken : Option String
  resume : Option String
  password : Option String
  skills : Option (List String)
  others : Nat

/-- Truthiness of an optional string: present and not empty. -/
def truthy : Option String → Bool
  | none => false
  | some s => s != ""

/-- The test `Object.keys(filteredUpdates).length === 0`. -/
def Updates.noKeys (u : Updates) : Bool :=
  u.name.isNone && u.email.isNone && u.mobileNo.isNone && u.linkedin.isNone &&
    u.resumeToken.isNone && u.resume.isNone && u.password.isNone && u.skills.isNone &&
    u.others == 0

/-- One disjunct of the `$or` query of the duplicate check. -/
inductive UniqueQuery where
  | email (v : String)
  | mobileNo (v : String)
  | linkedin (v : String)

/-- The array `uniqueCheck`. -/
def uniqueCheck (u : Updates) : List UniqueQuery :=
  (if truthy u.email then [.email (u.email.getD "")] else []) ++
  (if truthy u.mobileNo then [.mobileNo (u.mobileNo.getD "")] else []) ++
  (if truthy u.linkedin then [.linkedin (u.linkedin.getD "")] else [])

/-- Whether a document satisfies one disjunct. -/
def UniqueQuery.holds (c : Candidate) : UniqueQuery → Bool
  | .email v => c.email == v
  | .mobileNo v => c.mobileNo == v
  | .linkedin v => c.linkedin == some v

/-- The call `Candidate.findOne({ $or: uniqueCheck })`. -/
def findOneOr (qs : List UniqueQuery) (cs : List Candidate) : Option Candidate :=
  cs.find? (fun c => qs.any (fun q => q.holds c))

/-- The variable `existingField` of the duplicate check (`undefined` when no
branch fires). -/
def existingField (c : Candidate) (u : Updates) : String :=
  if some c.email = u.email then "Email"
  else if some c.mobileNo = u.mobileNo then "Mobile number"
  else if truthy c.linkedIn && c.linkedin == u.linkedin then "Linkedin id"
  else "undefined"

/-- The document written by `findByIdAndUpdate(id, filteredUpdates, { new: true })`. -/
def applyUpdates (u : Updates) (c : Candidate) : Candidate :=
  { c with
    name := u.name.getD c.name,
    email := u.email.getD c.email,
    mobileNo := u.mobileNo.getD c.mobileNo,
    linkedin := match u.linkedin with | some v => some v | none => c.linkedin,
    resume := match u.resume with | some v => some v | none => c.resume,
    password := match u.password with | some v => some v | none => c.password,
    skills := u.skills.getD c.skills }

/-- Replacement of the document with the given id. -/
def replaceById (id : ObjectId) (d : Candidate) : List Candidate → List Candidate
  | [] => []
  | c :: cs => if c._id = id then d :: cs else c :: replaceById id d cs

/-- Lines 167 to 186: the duplicate check, giving the error it throws. -/
def duplicateCheck (env : Env) (db : Db) (id : ObjectId) (u : Updates) : Option Thrown :=
  if (uniqueCheck u).length > 0 then
    match env.candidateFindOne with
    | some e => some e
    | none =>
      match findOneOr (uniqueCheck u) db.candidates with
      | some c =>
        if c._id ≠ id then
          some (.api 400 ("Candidate already exists with this " ++ existingField c u)
            "CANDIDATE_ALREADY_EXISTS")
        else none
      | none => none
  else none

/-- Lines 188 to 227: resume handling and password hashing. Every failure of
the resume handling is caught; its only output is the new resume name
(`env.resume`), and the token is deleted from the updates. -/
def prepareUpdates (env : Env) (u0 : Updates) : Updates :=
  let u1 : Updates :=
    if truthy u0.resumeToken then
      { u0 with resume := (match env.resume with | some r => some r | none => u0.resume),
                resumeToken := none }
    else u0
  if truthy u1.password then { u1 with password := u1.password.map env.hash } else u1

/-- Lines 244 to 247: the recomputation after the response of a PATCH, run when
`filteredUpdates.skills` is truthy (`skills` is an array, so present means
truthy). -/
def patchRecompute (env : Env) (skills : Bool) (candidate : Candidate) :
    List Effect × Except Thrown Unit :=
  if skills then
    andThen
      (awaitAll env
        (.calculateSingleCandidateScoreMultipleSubjects candidate._id)
        (.calculateAllExpertsScoresMultipleSubjects candidate.subjects))
      (awaitAll env
        (.calculateAverageRelevancyScoreSingleCandidate candidate._id)
        .calculateAverageScoresAllExperts)
  else ([], .ok ())

/-- The handler of `router.route('/:id').patch`. `parsed` is the result of
`candidateUpdateSchema.parse(req.body)` after the `null` entries are filtered
out. -/
def patchCandidate (env : Env) (db : Db) (id : ObjectId)
    (parsed : Except Thrown Updates) : Outcome :=
  if !env.isValidObjectId id then
    ⟨db, [], .error (.api 400 "Invalid candidate ID" "INVALID_ID"), []⟩
  else
    match parsed with
    | .error e => ⟨db, [], .error e, []⟩
    | .ok u0 =>
      if u0.noKeys then
        ⟨db, [], .error (.api 400 "No updates provided" "NO_UPDATES_PROVIDED"), []⟩
      else
        match duplicateCheck env db id u0 with
        | some e => ⟨db, [], .error e, []⟩
        | none =>
          let filteredUpdates := prepareUpdates env u0
          match env.candidateFindByIdAndUpdate with
          | some e => ⟨db, [], .error e, []⟩
          | none =>
            match findById id db.candidates with
            | none =>
              ⟨db, [], .error (.api 404 "Candidate not found" "CANDIDATE_NOT_FOUND"), []⟩
            | some doc =>
              let updated := applyUpdates filteredUpdates doc
              let candidate := selectNoPassword updated
              let db1 : Db := { db with candidates := replaceById id updated db.candidates }
              let rec1 := patchRecompute env filteredUpdates.skills.isSome candidate
              ⟨db1,
                [.write (.candidateFindByIdAndUpdate id),
                  .respond 200 "Candidate updated successfully"] ++ rec1.1,
                rec1.2,
                []⟩

/-! ## Reading a trace -/

/-- The recomputations a trace starts, in order. -/
def invocations : List Effect → List Recompute
  | [] => []
  | .invoke r :: t => r :: invocations t
  | _ :: t => invocations t

/-- Pair-score recomputations, as opposed to the aggregate (average) ones. -/
def Recompute.isPairScore : Recompute → Bool
  | .calculateAllExpertsScoresMultipleSubjects _ => true
  | .calculateSingleCandidateScoreMultipleSubjects _ => true
  | .calculateAverageScoresAllExperts => false
  | .calculateAverageRelevancyScoreSingleCandidate _ => false

/-- The subject collections handed to the expert-score recomputation, one per
invocation. -/
def expertScopes : List Effect → List (List ObjectId)
  | [] => []
  | .invoke (.calculateAllExpertsScoresMultipleSubjects ss) :: t => ss :: expertScopes t
  | _ :: t => expertScopes t

/-- The success responses of a trace. -/
def responses : List Effect → List (Nat × String)
  | [] => []
  | .respond st m :: t => (st, m) :: responses t
  | _ :: t => responses t

/-! ## Ordering of a trace -/

/-- The pipeline phase of an effect: storage writes, then the response, then
pair-score recomputation, then aggregate recomputation. -/
def phase : Effect → Nat
  | .write _ => 0
  | .respond _ _ => 1
  | .invoke r => if r.isPairScore then 2 else 3
  | .resolved r => if r.isPairScore then 2 else 3
  | .rejected r => if r.isPairScore then 2 else 3

/-- A trace in pipeline order behind its committing write: the committing
write is the first effect, phases never go backwards, one success response with
status 200 is sent, and an aggregate recomputation is started only when every
pair-score recomputation that was started has resolved. The trace holds the
effects the handler orders; the `pending` writes of an outcome are outside it. -/
def PipelineOrdered (commit : Write) (t : List Effect) : Prop :=
  t.head? = some (.write commit) ∧
  (t.map phase).Pairwise (fun a b => a ≤ b) ∧
  (∃ message, responses t = [(200, message)]) ∧
  ∀ a, Effect.invoke a ∈ t → a.isPairScore = false →
    ∀ r, Effect.invoke r ∈ t → r.isPairScore = true → Effect.resolved r ∈ t

/-- The storage calls of the bulk deletion all resolve. -/
def Env.bulkStorageResolves (env : Env) : Prop :=
  env.candidateFind = none ∧ env.candidateDeleteMany = none ∧
    env.subjectUpdateMany = none ∧ env.applicationDeleteMany = none ∧
    env.expertUpdateMany = none

/-! ## Sample inputs -/

/-- An environment in which every external call resolves. -/
def quietEnv : Env where
  isValidObjectId := fun _ => true
  candidateFind := none
  candidateDeleteMany := none
  subjectUpdateMany := none
  applicationDeleteMany := none
  expertUpdateMany := none
  candidateFindByIdAndDelete := none
  candidateFindOne := none
  candidateFindByIdAndUpdate := none
  recompute := fun _ => none
  secondSettlesFirst := false
  settleRank := fun _ => 0
  mongooseStrict := true
  resume := none
  hash := fun s => "#" ++ s

/-- The quiet environment, except that the expert-score recomputation rejects. -/
def rejectingEnv : Env :=
  { quietEnv with
    recompute := fun r =>
      match r with
      | .calculateAllExpertsScoresMultipleSubjects _ => some (.rejection 1)
      | _ => none }

/-- The quiet environment, except that `Subject.updateMany` rejects, after
`Application.deleteMany` has committed and before `Expert.updateMany` settles. -/
def cleanupRejectingEnv : Env :=
  { quietEnv with
    subjectUpdateMany := some (.rejection 2)
    settleRank := fun c =>
      match c with
      | .applicationDeleteMany => 0
      | .subjectUpdateMany => 1
      | .expertUpdateMany => 2 }

/-- The quiet environment, except that `Subject.updateMany` rejects before any
other cleanup write has settled. -/
def earlyRejectingEnv : Env :=
  { quietEnv with subjectUpdateMany := some (.rejection 3) }

/-- The quiet environment without mongoose strict mode. -/
def looseEnv : Env :=
  { quietEnv with mongooseStrict := false }

/-- Candidate 1, who applied to subjects 10 and 11. -/
def asha : Candidate :=
  ⟨1, "Asha Rao", "asha@example.org", "100", none, none, none, some "pw1", ["python"], [10, 11]⟩

/-- Candidate 2, who applied to subject 11. -/
def bina : Candidate :=
  ⟨2, "Bina Das", "bina@example.org", "200", none, none, none, some "pw2", ["ml"], [11]⟩

/-- Subject 10, whose only applicant is candidate 1. -/
def subject10 : Subject :=
  ⟨10, fun p =>
    match p with
    | .applicants => [.oid 1]
    | .experts => [.oid 7]
    | .candidates => [.sub 1]
    | .applications => []⟩

/-- Subject 11, with applicants 1 and 2. -/
def subject11 : Subject :=
  ⟨11, fun p =>
    match p with
    | .applicants => [.oid 1, .oid 2]
    | .experts => [.oid 7]
    | .candidates => [.sub 1, .sub 2]
    | .applications => []⟩

/-- A store with two candidates, two subjects, three applications, one expert. -/
def sampleDb : Db where
  candidates := [asha, bina]
  subjects := [subject10, subject11]
  applications := [⟨1, 10⟩, ⟨1, 11⟩, ⟨2, 11⟩]
  experts := [⟨7, [1, 2]⟩]

/-- A parsed PATCH body that carries only a skills value. -/
def skillsUpdate : Updates :=
  ⟨none, none, none, none, none, none, none, some ["python", "lean"], 0⟩

end CandidateRoutes

/-! ## The authentication middleware -/

namespace AuthMiddleware

/-- The table `config.priority` of `src/config/config.js`. -/
def priority (role : String) : Option Nat :=
  if role = "candidate" then some 0
  else if role = "expert" then some 0
  else if role = "admin" then some 1
  else if role = "superAdmin" then some 2
  else none

/-- The payload `verifyToken` returns; the middleware reads its `role`. -/
structure Payload where
  id : Nat
  role : Option String
  deriving DecidableEq, Repr

/-- The parts of an Express request the middleware reads. `cookies` is `none`
when `req.cookies` is undefined. -/
structure Request where
  headers : String → Option String
  cookies : Option (String → Option String)

/-- A response sent through `res.error(status, message, errorCode)`. -/
structure ErrorResponse where
  status : Nat
  message : String
  errorCode : String
  deriving DecidableEq, Repr

/-- What one run of the middleware did. -/
structure Result where
  nextCalls : Nat
  responses : List ErrorResponse
  user : Option Payload
  deriving DecidableEq, Repr

/-- JavaScript truthiness of an optional string. -/
def truthy : Option String → Bool
  | none => false
  | some s => s != ""

/-- The call `s.split(' ')` on the characters of `s`. -/
def splitSpace : List Char → List (List Char)
  | [] => [[]]
  | c :: cs =>
    if c = ' ' then [] :: splitSpace cs
    else
      match splitSpace cs with
      | [] => [[c]]
      | w :: ws => (c :: w) :: ws

/-- The call `s.startsWith('Bearer ')`. -/
def startsWithBearer (s : String) : Bool :=
  "Bearer ".toList.isPrefixOf s.toList

/-- Lines 5 to 15 of `checkAuth`: the token read from the request, or the 401
answer of the mobile branch. -/
def extractToken (req : Request) : Except ErrorResponse (Option String) :=
  if truthy (req.headers "isMobile") then
    match req.headers "authorization" with
    | none => .error ⟨401, "Missing or malformed token", "UNAUTHORIZED"⟩
    | some authHeader =>
      if authHeader == "" || !startsWithBearer authHeader then
        .error ⟨401, "Missing or malformed token", "UNAUTHORIZED"⟩
      else
        .ok (((splitSpace authHeader.toList).get? 1).map String.mk)
  else
    match req.cookies with
    | none => .ok none
    | some cookies => .ok (cookies "token")

/-- The middleware `checkAuth(role)` applied to a request. `verifyToken` is the
function imported from the JWT utilities: a payload, or nothing when the token
does not verify. -/
def checkAuth (verifyToken : Option String → Option Payload) (role : Option String)
    (req : Request) : Result :=
  match extractToken req with
  | .error r => ⟨0, [r], none⟩
  | .ok token =>
    match verifyToken token with
    | none => ⟨0, [⟨401, "Invalid or expired token", "UNAUTHORIZED"⟩], none⟩
    | some payload =>
      if truthy role && payload.role != role then
        ⟨0, [⟨403, "Unauthorized access", "FORBIDDEN"⟩], none⟩
      else
        ⟨1, [], some payload⟩

/-! ## Sample inputs -/

/-- A verifier that accepts the token "root" as a superadmin (the role name of
the Admin schema), "boss" as a superAdmin (the key of `config.priority`), and
"adm" as an admin. -/
def sampleVerify (token : Option String) : Option Payload :=
  if token = some "root" then some ⟨5, some "superadmin"⟩
  else if token = some "boss" then some ⟨6, some "superAdmin"⟩
  else if token = some "adm" then some ⟨7, some "admin"⟩
  else none

/-- A browser request carrying the given token cookie. -/
def cookieRequest (token : String) : Request :=
  ⟨fun _ => none, some (fun k => if k = "token" then some token else none)⟩

end AuthMiddleware


/-! ## The error-handling middleware of the application -/

namespace App

/-- An entry of the array `error.errors`; the middleware reads its `message`. -/
structure Issue where
  message : Option String
  deriving DecidableEq, Repr

/-- The error value handed to the error-handling middleware, with the
properties the middleware reads. `errors` is `none` when the property is
absent and `some l` when it is an array with the entries `l`. -/
structure JsError where
  errors : Option (List Issue)
  isOperational : Bool
  statusCode : Option Nat
  message : Option String
  errorCode : Option String
  data : Option String
  deriving DecidableEq, Repr

/-- A response sent through `res.error(status, message, errorCode, data)`. -/
structure ErrorResponse where
  status : Nat
  message : String
  errorCode : Option String
  data : Option String
  deriving DecidableEq, Repr

/-- What the middleware itself throws: the TypeError of reading a property of
`undefined`. -/
inductive Raised where
  | typeError (property : String)
  deriving DecidableEq, Repr

/-- One run of the middleware: the responses it sent, and whether it returned
or threw. -/
structure Run where
  responses : List ErrorResponse
  result : Except Raised Unit

/-- JavaScript truthiness of an optional string. -/
def truthy : Option String → Bool
  | none => false
  | some s => s != ""

/-- The expression `error.statusCode || 500`. -/
def statusOr500 : Option Nat → Nat
  | none => 500
  | some 0 => 500
  | some n => n

/-- The expression `error.message || 'Internal Server Error'`. -/
def messageOrDefault (m : Option String) : String :=
  if truthy m then m.getD "" else "Internal Server Error"

/-- Lines 44 to 53 of `src/app.js`: the answer for an error that is not a
validation error. -/
def answerByKind (error : JsError) : Run :=
  if error.isOperational then
    ⟨[⟨statusOr500 error.statusCode, messageOrDefault error.message, error.errorCode,
        error.data⟩], .ok ()⟩
  else
    ⟨[⟨500, "Internal Server Error", some "UNHANDLED_ERROR", none⟩], .ok ()⟩

/-- The error-handling middleware `app.use((error, req, res, next) => ...)` of
`src/app.js`. In `error.errors && error.errors[0].message` an array is truthy
even when it is empty, `error.errors[0]` of an empty array is `undefined`, and
reading `.message` of `undefined` throws. -/
def errorMiddleware (error : JsError) : Run :=
  match error.errors with
  | none => answerByKind error
  | some [] => ⟨[], .error (.typeError "message")⟩
  | some (first :: _) =>
    if truthy first.message then
      ⟨[⟨400, first.message.getD "", some "VALIDATION_ERROR", none⟩], .ok ()⟩
    else answerByKind error

/-! ## Sample inputs -/

/-- An operational error whose `errors` array is empty. -/
def emptyErrors : JsError :=
  ⟨some [], true, some 404, some "Candidate not found", some "CANDIDATE_NOT_FOUND", none⟩

/-- The same error without the `errors` property. -/
def noErrors : JsError :=
  ⟨none, true, some 404, some "Candidate not found", some "CANDIDATE_NOT_FOUND", none⟩

end App

/-! ## Properties of the candidate routes -/

namespace CandidateRoutes

theorem invocations_append (a b : List Effect) :
    invocations (a ++ b) = invocations a ++ invocations b := by
  induction a with
  | nil => rfl
  | cons e t ih => cases e <;> simp [invocations, ih]

theorem expertScopes_append (a b : List Effect) :
    expertScopes (a ++ b) = expertScopes a ++ expertScopes b := by
  induction a with
  | nil => rfl
  | cons e t ih =>
    cases e with
    | invoke r => cases r <;> simp [expertScopes, ih]
    | write w => simp [expertScopes, ih]
    | respond st m => simp [expertScopes, ih]
    | resolved r => simp [expertScopes, ih]
    | rejected r => simp [expertScopes, ih]

theorem responses_append (a b : List Effect) :
    responses (a ++ b) = responses a ++ responses b := by
  induction a with
  | nil => rfl
  | cons e t ih => cases e <;> simp [responses, ih]

theorem findById_id {id : ObjectId} {cs : List Candidate} {doc : Candidate}
    (h : findById id cs = some doc) : doc._id = id := by
  have := List.find?_some h
  simpa using this

theorem findById_replaceById {id : ObjectId} {cs : List Candidate} {doc d : Candidate}
    (h : findById id cs = some doc) (hd : d._id = id) :
    findById id (replaceById id d cs) = some d := by
  induction cs with
  | nil => simp [findById] at h
  | cons c t ih =>
    by_cases hc : c._id = id
    · simp [replaceById, hc, findById, hd]
    · have ht : findById id t = some doc := by
        simpa [findById, List.find?_cons, hc] using h
      have := ih ht
      simpa [replaceById, hc, findById, List.find?_cons] using this

theorem prepareUpdates_skills (env : Env) (u : Updates) :
    (prepareUpdates env u).skills = u.skills := by
  unfold prepareUpdates
  dsimp only
  split_ifs <;> rfl

theorem settle_invocations (env : Env) (r : Recompute) (t : List Effect) :
    invocations (settle env r :: t) = invocations t := by
  unfold settle
  split <;> rfl

theorem settle_expertScopes (env : Env) (r : Recompute) (t : List Effect) :
    expertScopes (settle env r :: t) = expertScopes t := by
  unfold settle
  split <;> rfl

/-- The shape of a PATCH run that gets past every check. -/
theorem patchCandidate_eq {env : Env} {db : Db} {id : ObjectId} {u : Updates}
    {doc : Candidate} (hv : env.isValidObjectId id = true) (hk : u.noKeys = false)
    (hdup : duplicateCheck env db id u = none)
    (hupd : env.candidateFindByIdAndUpdate = none)
    (hdoc : findById id db.candidates = some doc) :
    patchCandidate env db id (.ok u) =
      ⟨{ db with candidates :=
            replaceById id (applyUpdates (prepareUpdates env u) doc) db.candidates },
        [.write (.candidateFindByIdAndUpdate id),
          .respond 200 "Candidate updated successfully"] ++
          (patchRecompute env u.skills.isSome doc).1,
        (patchRecompute env u.skills.isSome doc).2,
        []⟩ := by
  simp [patchCandidate, hv, hk, hdup, hupd, hdoc, prepareUpdates_skills, patchRecompute,
    applyUpdates, selectNoPassword]

/-- A PATCH run that sent its success response got past every check. -/
theorem patchCandidate_responded {env : Env} {db : Db} {id : ObjectId} {u : Updates}
    (h : (200, "Candidate updated successfully") ∈
      responses (patchCandidate env db id (.ok u)).trace) :
    env.isValidObjectId id = true ∧ u.noKeys = false ∧ duplicateCheck env db id u = none ∧
      env.candidateFindByIdAndUpdate = none ∧ ∃ doc, findById id db.candidates = some doc := by
  cases hv : env.isValidObjectId id with
  | false => simp [patchCandidate, hv, responses] at h
  | true =>
    cases hk : u.noKeys with
    | true => simp [patchCandidate, hv, hk, responses] at h
    | false =>
      cases hdup : duplicateCheck env db id u with
      | some e => simp [patchCandidate, hv, hk, hdup, responses] at h
      | none =>
        cases hupd : env.candidateFindByIdAndUpdate with
        | some e => simp [patchCandidate, hv, hk, hdup, hupd, responses] at h
        | none =>
          cases hdoc : findById id db.candidates with
          | none => simp [patchCandidate, hv, hk, hdup, hupd, hdoc, responses] at h
          | some doc => exact ⟨rfl, rfl, rfl, rfl, doc, rfl⟩

theorem patchRecompute_pairs (env : Env) (c : Candidate) :
    (invocations (patchRecompute env true c).1).filter Recompute.isPairScore =
      [.calculateSingleCandidateScoreMultipleSubjects c._id,
        .calculateAllExpertsScoresMultipleSubjects c.subjects] := by
  simp only [patchRecompute, andThen, if_true]
  split <;>
    simp [awaitAll, invocations, settle_invocations, Recompute.isPairScore]

theorem patchRecompute_scopes (env : Env) (c : Candidate) :
    expertScopes (patchRecompute env true c).1 = [c.subjects] := by
  simp only [patchRecompute, andThen, if_true]
  split <;>
    simp [awaitAll, expertScopes, settle_expertScopes]

/-- C1. Every PATCH /candidate/:id that carries a skills value and sends its
success response stores the updated candidate document, and the pair-score
recomputations it starts are exactly the candidate-score recomputation for that
candidate's id and the expert-score recomputation with the subject list of the
updated document; that list is the only subject collection handed to the
expert-score recomputation. -/
theorem patch_skills_recompute_scope (env : Env) (db : Db) (id : ObjectId) (u : Updates)
    (skills : List String) (hskills : u.skills = some skills)
    (hok : (200, "Candidate updated successfully") ∈
      responses (patchCandidate env db id (.ok u)).trace) :
    ∃ candidate : Candidate,
      findById id (patchCandidate env db id (.ok u)).db.candidates = some candidate ∧
      candidate._id = id ∧ candidate.skills = skills ∧
      (invocations (patchCandidate env db id (.ok u)).trace).filter Recompute.isPairScore =
        [.calculateSingleCandidateScoreMultipleSubjects id,
          .calculateAllExpertsScoresMultipleSubjects candidate.subjects] ∧
      expertScopes (patchCandidate env db id (.ok u)).trace = [candidate.subjects] ∧
      ∀ s, s ∈ candidate.subjects ↔
        ∃ scope ∈ expertScopes (patchCandidate env db id (.ok u)).trace, s ∈ scope := by
  obtain ⟨hv, hk, hdup, hupd, doc, hdoc⟩ := patchCandidate_responded hok
  have hid : doc._id = id := findById_id hdoc
  have hrun := patchCandidate_eq hv hk hdup hupd hdoc
  have hsome : u.skills.isSome = true := by simp [hskills]
  refine ⟨applyUpdates (prepareUpdates env u) doc, ?_, ?_, ?_, ?_, ?_, ?_⟩
  · rw [hrun]
    exact findById_replaceById hdoc (by simpa [applyUpdates] using hid)
  · simpa [applyUpdates] using hid
  · simp [applyUpdates, prepareUpdates_skills, hskills]
  · rw [hrun, hsome]
    have := patchRecompute_pairs env doc
    simpa [invocations_append, invocations, hid, applyUpdates] using this
  · rw [hrun, hsome]
    have := patchRecompute_scopes env doc
    simpa [expertScopes_append, expertScopes, applyUpdates] using this
  · intro s
    rw [hrun, hsome]
    have := patchRecompute_scopes env doc
    simp [expertScopes_append, expertScopes, applyUpdates, this]

/-- Witness of C1: a skills-only update of candidate 1 in the sample store. -/
theorem patch_skills_recompute_scope_witness :
    skillsUpdate.skills = some ["python", "lean"] ∧
    (200, "Candidate updated successfully") ∈
      responses (patchCandidate quietEnv sampleDb 1 (.ok skillsUpdate)).trace ∧
    ∃ candidate : Candidate,
      findById 1 (patchCandidate quietEnv sampleDb 1 (.ok skillsUpdate)).db.candidates =
        some candidate ∧
      candidate._id = 1 ∧ candidate.skills = ["python", "lean"] ∧
      (invocations (patchCandidate quietEnv sampleDb 1 (.ok skillsUpdate)).trace).filter
          Recompute.isPairScore =
        [.calculateSingleCandidateScoreMultipleSubjects 1,
          .calculateAllExpertsScoresMultipleSubjects candidate.subjects] ∧
      expertScopes (patchCandidate quietEnv sampleDb 1 (.ok skillsUpdate)).trace =
        [candidate.subjects] ∧
      ∀ s, s ∈ candidate.subjects ↔
        ∃ scope ∈ expertScopes (patchCandidate quietEnv sampleDb 1 (.ok skillsUpdate)).trace,
          s ∈ scope :=
  ⟨rfl, by decide,
    patch_skills_recompute_scope quietEnv sampleDb 1 skillsUpdate ["python", "lean"] rfl
      (by decide)⟩

/-! ### DELETE /candidate/:id -/

theorem commits_invocations (f : CleanupCall → Option Write) (cs : List CleanupCall) :
    invocations (commits f cs) = [] := by
  unfold commits
  induction cs.filterMap f with
  | nil => rfl
  | cons w t ih => simpa [invocations] using ih

theorem commits_expertScopes (f : CleanupCall → Option Write) (cs : List CleanupCall) :
    expertScopes (commits f cs) = [] := by
  unfold commits
  induction cs.filterMap f with
  | nil => rfl
  | cons w t ih => simpa [expertScopes] using ih

theorem commits_phase (f : CleanupCall → Option Write) (cs : List CleanupCall) :
    ∀ e ∈ commits f cs, phase e = 0 := by
  intro e he
  unfold commits at he
  obtain ⟨w, -, rfl⟩ := List.mem_map.1 he
  rfl

/-- When every cleanup write resolves, the `Promise.all` commits all members
and throws nothing. -/
theorem settleAll_of_resolving (env : Env) (h : ∀ c, env.cleanupOutcome c = none)
    (cs : List CleanupCall) : settleAll env cs = ⟨cs, none, []⟩ := by
  induction cs with
  | nil => rfl
  | cons c t ih => simp [settleAll, h c, ih]

theorem deleteRecompute_invocations (env : Env) (ss : List ObjectId) :
    invocations (deleteRecompute env ss).1 =
      .calculateAllExpertsScoresMultipleSubjects ss ::
        (if (env.recompute (.calculateAllExpertsScoresMultipleSubjects ss)).isNone then
          [.calculateAverageScoresAllExperts] else []) := by
  unfold deleteRecompute andThen awaitOne
  cases h : env.recompute (.calculateAllExpertsScoresMultipleSubjects ss) <;>
    simp [invocations, settle_invocations]

theorem deleteRecompute_expertScopes (env : Env) (ss : List ObjectId) :
    expertScopes (deleteRecompute env ss).1 = [ss] := by
  unfold deleteRecompute andThen awaitOne
  cases h : env.recompute (.calculateAllExpertsScoresMultipleSubjects ss) <;>
    simp [expertScopes, settle_expertScopes]

/-- The trace of a single deletion that found its candidate. -/
theorem deleteCandidate_trace {env : Env} {db : Db} {id : ObjectId} {doc : Candidate}
    (hv : env.isValidObjectId id = true) (hdel : env.candidateFindByIdAndDelete = none)
    (hdoc : findById id db.candidates = some doc) :
    (deleteCandidate env db id).trace =
        [.write (.candidateFindByIdAndDelete id)] ++
          commits (deleteWrite (selectNoPassword doc))
            (settleAll env (settleOrder env.settleRank
              [.subjectUpdateMany, .applicationDeleteMany])).committed ++
          [.respond 200 "Candidate deleted successfully"] ++
          (deleteRecompute env doc.subjects).1 ∧
      (deleteCandidate env db id).result = (deleteRecompute env doc.subjects).2 := by
  simp [deleteCandidate, hv, hdel, hdoc, selectNoPassword]

/-- A single deletion that sent its success response found its candidate. -/
theorem deleteCandidate_responded {env : Env} {db : Db} {id : ObjectId}
    (h : (200, "Candidate deleted successfully") ∈
      responses (deleteCandidate env db id).trace) :
    env.isValidObjectId id = true ∧ env.candidateFindByIdAndDelete = none ∧
      ∃ doc, findById id db.candidates = some doc := by
  cases hv : env.isValidObjectId id with
  | false => simp [deleteCandidate, hv, responses] at h
  | true =>
    cases hdel : env.candidateFindByIdAndDelete with
    | some e => simp [deleteCandidate, hv, hdel, responses] at h
    | none =>
      cases hdoc : findById id db.candidates with
      | none => simp [deleteCandidate, hv, hdel, hdoc, responses] at h
      | some doc => exact ⟨rfl, rfl, doc, rfl⟩

/-- C2, as stated, fails: candidate 1 is deleted and the 200 response is sent,
the expert-score recomputation is started with the candidate's subjects and
rejects, and the expert aggregate recomputation is never started. -/
theorem delete_aggregate_not_started :
    findById 1 sampleDb.candidates = some asha ∧
    (deleteCandidate rejectingEnv sampleDb 1).db.candidates = [bina] ∧
    responses (deleteCandidate rejectingEnv sampleDb 1).trace =
      [(200, "Candidate deleted successfully")] ∧
    invocations (deleteCandidate rejectingEnv sampleDb 1).trace =
      [.calculateAllExpertsScoresMultipleSubjects [10, 11]] ∧
    Recompute.calculateAverageScoresAllExperts ∉
      invocations (deleteCandidate rejectingEnv sampleDb 1).trace := by
  decide

/-- C2, amended. Every DELETE /candidate/:id that sends its success response
starts the expert-score recomputation first, exactly once, with exactly the
subject list of the document stored before the removal (the one the delete
returns), so every subject the deleted candidate had applied to is in the
recomputed scope; when that recomputation resolves, the expert aggregate
recomputation follows it and nothing else is started. -/
theorem delete_recompute_scope (env : Env) (db : Db) (id : ObjectId)
    (hok : (200, "Candidate deleted successfully") ∈
      responses (deleteCandidate env db id).trace) :
    ∃ candidate : Candidate,
      findById id db.candidates = some candidate ∧
      (deleteCandidate env db id).db.candidates = db.candidates.eraseP (fun c => c._id = id) ∧
      expertScopes (deleteCandidate env db id).trace = [candidate.subjects] ∧
      (∃ rest, invocations (deleteCandidate env db id).trace =
        .calculateAllExpertsScoresMultipleSubjects candidate.subjects :: rest) ∧
      (env.recompute (.calculateAllExpertsScoresMultipleSubjects candidate.subjects) = none →
        invocations (deleteCandidate env db id).trace =
          [.calculateAllExpertsScoresMultipleSubjects candidate.subjects,
            .calculateAverageScoresAllExperts]) ∧
      ∀ s ∈ candidate.subjects,
        ∃ scope ∈ expertScopes (deleteCandidate env db id).trace, s ∈ scope := by
  obtain ⟨hv, hdel, doc, hdoc⟩ := deleteCandidate_responded hok
  obtain ⟨htrace, -⟩ := deleteCandidate_trace hv hdel hdoc
  have hscopes : expertScopes (deleteCandidate env db id).trace = [doc.subjects] := by
    rw [htrace]
    simp [expertScopes_append, expertScopes, commits_expertScopes,
      deleteRecompute_expertScopes]
  have hinv : invocations (deleteCandidate env db id).trace =
      invocations (deleteRecompute env doc.subjects).1 := by
    rw [htrace]
    simp [invocations_append, invocations, commits_invocations]
  refine ⟨doc, hdoc, ?_, hscopes, ?_, ?_, ?_⟩
  · simp [deleteCandidate, hv, hdel, hdoc, deleteById]
  · rw [hinv, deleteRecompute_invocations]
    exact ⟨_, rfl⟩
  · intro hres
    rw [hinv, deleteRecompute_invocations]
    simp [hres]
  · intro s hs
    exact ⟨doc.subjects, by simp [hscopes], hs⟩

/-- Witness of the amended C2: deleting candidate 1, the sole applicant of
subject 10. -/
theorem delete_recompute_scope_witness :
    (200, "Candidate deleted successfully") ∈
      responses (deleteCandidate quietEnv sampleDb 1).trace ∧
    ∃ candidate : Candidate,
      findById 1 sampleDb.candidates = some candidate ∧
      (deleteCandidate quietEnv sampleDb 1).db.candidates =
        sampleDb.candidates.eraseP (fun c => c._id = 1) ∧
      expertScopes (deleteCandidate quietEnv sampleDb 1).trace = [candidate.subjects] ∧
      (∃ rest, invocations (deleteCandidate quietEnv sampleDb 1).trace =
        .calculateAllExpertsScoresMultipleSubjects candidate.subjects :: rest) ∧
      (quietEnv.recompute (.calculateAllExpertsScoresMultipleSubjects candidate.subjects) =
          none →
        invocations (deleteCandidate quietEnv sampleDb 1).trace =
          [.calculateAllExpertsScoresMultipleSubjects candidate.subjects,
            .calculateAverageScoresAllExperts]) ∧
      ∀ s ∈ candidate.subjects,
        ∃ scope ∈ expertScopes (deleteCandidate quietEnv sampleDb 1).trace, s ∈ scope :=
  ⟨by decide, delete_recompute_scope quietEnv sampleDb 1 (by decide)⟩

/-! ### DELETE /candidate/ -/

theorem flatSubjects_selectNoPassword (cs : List Candidate) :
    flatSubjects (cs.map selectNoPassword) = flatSubjects cs := by
  simp [flatSubjects, selectNoPassword, List.map_map, Function.comp_def]

theorem cleanupOutcome_of_resolves {env : Env} (hst : env.bulkStorageResolves) :
    ∀ c, env.cleanupOutcome c = none := by
  obtain ⟨-, -, h3, h4, h5⟩ := hst
  intro c
  cases c <;> simp [Env.cleanupOutcome, h3, h4, h5]

/-- The trace of a bulk deletion whose storage calls resolve. -/
theorem deleteAllCandidates_trace {env : Env} {db : Db} (hne : db.candidates ≠ [])
    (hst : env.bulkStorageResolves) :
    (deleteAllCandidates env db).trace =
        [.write .candidateDeleteMany] ++
          commits bulkWrite (settleOrder env.settleRank
            [.subjectUpdateMany, .applicationDeleteMany, .expertUpdateMany]) ++
          [.respond 200 "All candidates successfully deleted"] ++
          (deleteRecompute env (flatSubjects db.candidates)).1 ∧
      (deleteAllCandidates env db).result =
        (deleteRecompute env (flatSubjects db.candidates)).2 := by
  have hall := settleAll_of_resolving env (cleanupOutcome_of_resolves hst)
  obtain ⟨h1, h2, h3, h4, h5⟩ := hst
  simp [deleteAllCandidates, h1, h2, h3, h4, h5, hne, hall, flatSubjects_selectNoPassword]

theorem mem_flatSubjects (cs : List Candidate) (s : ObjectId) :
    s ∈ flatSubjects cs ↔ ∃ c ∈ cs, s ∈ c.subjects := by
  simp [flatSubjects]

theorem count_flatSubjects (cs : List Candidate) (s : ObjectId) :
    (flatSubjects cs).count s = (cs.map (fun c => c.subjects.count s)).sum := by
  induction cs with
  | nil => rfl
  | cons c t ih =>
    have : flatSubjects (c :: t) = c.subjects ++ flatSubjects t := by
      simp [flatSubjects]
    rw [this, List.count_append, ih]
    simp

/-- C3 fails on the code: two candidates are stored and `Subject.updateMany`
rejects inside the unguarded `Promise.all`; the candidates are deleted, the
handler throws before the response, and no expert-score recomputation is
started. -/
theorem bulk_cleanup_rejection_skips_recompute :
    sampleDb.candidates ≠ [] ∧
    (deleteAllCandidates cleanupRejectingEnv sampleDb).db.candidates = [] ∧
    (deleteAllCandidates cleanupRejectingEnv sampleDb).trace =
      [.write .candidateDeleteMany, .write .applicationDeleteMany] ∧
    (deleteAllCandidates cleanupRejectingEnv sampleDb).pending = [.expertUpdateManySet] ∧
    (deleteAllCandidates cleanupRejectingEnv sampleDb).result = .error (.rejection 2) ∧
    expertScopes (deleteAllCandidates cleanupRejectingEnv sampleDb).trace = [] ∧
    invocations (deleteAllCandidates cleanupRejectingEnv sampleDb).trace = [] :=
  ⟨by decide, by decide, by decide, by decide, rfl, by decide, by decide⟩

/-- For every non-empty collection of stored candidates, a bulk deletion whose
storage calls resolve starts the expert-score recomputation exactly once, and
the subject collection it passes contains a subject exactly when some deleted
candidate had applied to it. -/
theorem bulk_delete_single_recompute (env : Env) (db : Db) (hne : db.candidates ≠ [])
    (hst : env.bulkStorageResolves) :
    (deleteAllCandidates env db).db.candidates = [] ∧
    ∃ scope : List ObjectId,
      expertScopes (deleteAllCandidates env db).trace = [scope] ∧
      ((invocations (deleteAllCandidates env db).trace).filter
        (fun r => r.isPairScore)).length = 1 ∧
      ∀ s, s ∈ scope ↔ ∃ c ∈ db.candidates, s ∈ c.subjects := by
  obtain ⟨htrace, -⟩ := deleteAllCandidates_trace hne hst
  refine ⟨?_, flatSubjects db.candidates, ?_, ?_, mem_flatSubjects _⟩
  · have hall := settleAll_of_resolving env (cleanupOutcome_of_resolves hst)
    obtain ⟨h1, h2, h3, h4, h5⟩ := hst
    simp [deleteAllCandidates, h1, h2, h3, h4, h5, hne, hall]
  · rw [htrace]
    simp [expertScopes_append, expertScopes, commits_expertScopes,
      deleteRecompute_expertScopes]
  · rw [htrace]
    have hinv : invocations ([Effect.write Write.candidateDeleteMany] ++
          commits bulkWrite (settleOrder env.settleRank
            [.subjectUpdateMany, .applicationDeleteMany, .expertUpdateMany]) ++
          [Effect.respond 200 "All candidates successfully deleted"] ++
          (deleteRecompute env (flatSubjects db.candidates)).1) =
        invocations (deleteRecompute env (flatSubjects db.candidates)).1 := by
      simp [invocations_append, invocations, commits_invocations]
    rw [hinv, deleteRecompute_invocations]
    split <;> simp [Recompute.isPairScore]

/-- The bulk deletion of the two sample candidates, every storage call
resolving. -/
theorem bulk_delete_single_recompute_witness :
    sampleDb.candidates ≠ [] ∧ quietEnv.bulkStorageResolves ∧
    (deleteAllCandidates quietEnv sampleDb).db.candidates = [] ∧
    ∃ scope : List ObjectId,
      expertScopes (deleteAllCandidates quietEnv sampleDb).trace = [scope] ∧
      ((invocations (deleteAllCandidates quietEnv sampleDb).trace).filter
        (fun r => r.isPairScore)).length = 1 ∧
      ∀ s, s ∈ scope ↔ ∃ c ∈ sampleDb.candidates, s ∈ c.subjects :=
  ⟨by decide, ⟨rfl, rfl, rfl, rfl, rfl⟩,
    bulk_delete_single_recompute quietEnv sampleDb (by decide) ⟨rfl, rfl, rfl, rfl, rfl⟩⟩

/-- C4, as stated, fails: candidates 1 and 2 both applied to subject 11, and the
collection handed to the expert-score recomputation by the bulk deletion holds
subject 11 twice. -/
theorem bulk_scope_keeps_duplicates :
    asha ∈ sampleDb.candidates ∧ bina ∈ sampleDb.candidates ∧ asha ≠ bina ∧
    11 ∈ asha.subjects ∧ 11 ∈ bina.subjects ∧
    expertScopes (deleteAllCandidates quietEnv sampleDb).trace = [[10, 11, 11]] ∧
    ¬ ∀ scope ∈ expertScopes (deleteAllCandidates quietEnv sampleDb).trace,
        scope.count 11 = 1 := by
  decide

/-- C4, amended. The subject collection a bulk deletion hands to the
expert-score recomputation is the concatenation, in stored order, of the subject
lists of the deleted candidates: a subject occurs in it as many times as it
occurs in those lists taken together. -/
theorem bulk_scope_is_concatenation (env : Env) (db : Db) (hne : db.candidates ≠ [])
    (hst : env.bulkStorageResolves) :
    expertScopes (deleteAllCandidates env db).trace =
        [(db.candidates.map (fun c => c.subjects)).flatten] ∧
      ∀ s, ∀ scope ∈ expertScopes (deleteAllCandidates env db).trace,
        scope.count s = (db.candidates.map (fun c => c.subjects.count s)).sum := by
  obtain ⟨htrace, -⟩ := deleteAllCandidates_trace hne hst
  have hscopes : expertScopes (deleteAllCandidates env db).trace =
      [flatSubjects db.candidates] := by
    rw [htrace]
    simp [expertScopes_append, expertScopes, commits_expertScopes,
      deleteRecompute_expertScopes]
  refine ⟨hscopes, ?_⟩
  intro s scope hmem
  rw [hscopes] at hmem
  simp only [List.mem_singleton] at hmem
  rw [hmem]
  exact count_flatSubjects _ _

/-- Witness of the amended C4 on the sample store. -/
theorem bulk_scope_is_concatenation_witness :
    sampleDb.candidates ≠ [] ∧ quietEnv.bulkStorageResolves ∧
    expertScopes (deleteAllCandidates quietEnv sampleDb).trace =
        [(sampleDb.candidates.map (fun c => c.subjects)).flatten] ∧
      ∀ s, ∀ scope ∈ expertScopes (deleteAllCandidates quietEnv sampleDb).trace,
        scope.count s = (sampleDb.candidates.map (fun c => c.subjects.count s)).sum :=
  ⟨by decide, ⟨rfl, rfl, rfl, rfl, rfl⟩,
    bulk_scope_is_concatenation quietEnv sampleDb (by decide) ⟨rfl, rfl, rfl, rfl, rfl⟩⟩

/-! ### Failure of a recomputation -/

/-- C5 fails on the code: with a rejecting expert-score recomputation, each of
the three mutation handlers has already sent its 200 response and then throws
the rejection to its caller. -/
theorem recompute_rejection_is_thrown :
    (responses (patchCandidate rejectingEnv sampleDb 1 (.ok skillsUpdate)).trace =
        [(200, "Candidate updated successfully")] ∧
      (patchCandidate rejectingEnv sampleDb 1 (.ok skillsUpdate)).result =
        .error (.rejection 1)) ∧
    (responses (deleteCandidate rejectingEnv sampleDb 1).trace =
        [(200, "Candidate deleted successfully")] ∧
      (deleteCandidate rejectingEnv sampleDb 1).result = .error (.rejection 1)) ∧
    (responses (deleteAllCandidates rejectingEnv sampleDb).trace =
        [(200, "All candidates successfully deleted")] ∧
      (deleteAllCandidates rejectingEnv sampleDb).result = .error (.rejection 1)) :=
  ⟨⟨by decide, rfl⟩, ⟨by decide, rfl⟩, ⟨by decide, rfl⟩⟩

/-! ### Pipeline order -/

theorem responses_of_phase_ne_one (t : List Effect) (h : ∀ e ∈ t, phase e ≠ 1) :
    responses t = [] := by
  induction t with
  | nil => rfl
  | cons e t ih =>
    have ht := ih (fun x hx => h x (List.mem_cons_of_mem _ hx))
    have he := h e (List.mem_cons_self _ _)
    cases e <;> simp_all [responses, phase]

theorem phase_invoke_ge (r : Recompute) : 2 ≤ phase (.invoke r) := by
  cases h : r.isPairScore <;> simp [phase, h]

/-- A trace made of the committing write, further writes, the 200 response and
a recomputation part that is itself in order, is in pipeline order. -/
theorem pipelineOrdered_of_parts (commit : Write) (ws rec1 : List Effect) (message : String)
    (hws : ∀ e ∈ ws, phase e = 0)
    (hge : ∀ e ∈ rec1, 2 ≤ phase e)
    (hsorted : (rec1.map phase).Pairwise (fun a b => a ≤ b))
    (hagg : ∀ a, Effect.invoke a ∈ rec1 → a.isPairScore = false →
      ∀ r, Effect.invoke r ∈ rec1 → r.isPairScore = true → Effect.resolved r ∈ rec1) :
    PipelineOrdered commit
      ([.write commit] ++ ws ++ [.respond 200 message] ++ rec1) := by
  have hmem : ∀ r, Effect.invoke r ∈
      [Effect.write commit] ++ ws ++ [Effect.respond 200 message] ++ rec1 →
      Effect.invoke r ∈ rec1 := by
    intro r hr
    simp only [List.mem_append, List.mem_singleton] at hr
    rcases hr with ((h | h) | h) | h
    · cases h
    · have := hws _ h
      have := phase_invoke_ge r
      omega
    · cases h
    · exact h
  refine ⟨rfl, ?_, ⟨message, ?_⟩, ?_⟩
  · have hmap : ([Effect.write commit] ++ ws ++ [Effect.respond 200 message] ++ rec1).map phase =
        0 :: (ws.map phase ++ 1 :: rec1.map phase) := by
      simp only [List.map_append, List.map_cons, List.map_nil, List.append_assoc,
        List.singleton_append, List.cons_append, List.nil_append]
      rfl
    have hws0 : ∀ a ∈ ws.map phase, a = 0 := by
      intro a ha
      obtain ⟨x, hx, rfl⟩ := List.mem_map.1 ha
      exact hws x hx
    have hrec2 : ∀ b ∈ rec1.map phase, 2 ≤ b := by
      intro b hb
      obtain ⟨x, hx, rfl⟩ := List.mem_map.1 hb
      exact hge x hx
    rw [hmap, List.pairwise_cons, List.pairwise_append, List.pairwise_cons]
    refine ⟨fun _ _ => Nat.zero_le _, ?_, ⟨?_, hsorted⟩, ?_⟩
    · exact List.pairwise_of_forall_mem_list (fun a ha b hb => by
        rw [hws0 a ha, hws0 b hb])
    · intro b hb
      have := hrec2 b hb
      omega
    · intro a ha b _
      rw [hws0 a ha]
      exact Nat.zero_le _
  · have h1 : responses ws = [] :=
      responses_of_phase_ne_one ws (fun e he => by rw [hws e he]; decide)
    have h2 : responses rec1 = [] :=
      responses_of_phase_ne_one rec1 (fun e he => by have := hge e he; omega)
    simp [responses_append, responses, h1, h2]
  · intro a ha hagg1 r hr hpair
    have := hagg a (hmem a ha) hagg1 r (hmem r hr) hpair
    simp [this]

theorem deleteRecompute_ordered (env : Env) (ss : List ObjectId) :
    (∀ e ∈ (deleteRecompute env ss).1, 2 ≤ phase e) ∧
    (((deleteRecompute env ss).1).map phase).Pairwise (fun a b => a ≤ b) ∧
    ∀ a, Effect.invoke a ∈ (deleteRecompute env ss).1 → a.isPairScore = false →
      ∀ r, Effect.invoke r ∈ (deleteRecompute env ss).1 → r.isPairScore = true →
        Effect.resolved r ∈ (deleteRecompute env ss).1 := by
  unfold deleteRecompute andThen awaitOne settle
  cases h1 : env.recompute (.calculateAllExpertsScoresMultipleSubjects ss) <;>
    cases h2 : env.recompute .calculateAverageScoresAllExperts <;>
    simp [phase, Recompute.isPairScore]

theorem patchRecompute_ordered (env : Env) (skills : Bool) (c : Candidate) :
    (∀ e ∈ (patchRecompute env skills c).1, 2 ≤ phase e) ∧
    (((patchRecompute env skills c).1).map phase).Pairwise (fun a b => a ≤ b) ∧
    ∀ a, Effect.invoke a ∈ (patchRecompute env skills c).1 → a.isPairScore = false →
      ∀ r, Effect.invoke r ∈ (patchRecompute env skills c).1 → r.isPairScore = true →
        Effect.resolved r ∈ (patchRecompute env skills c).1 := by
  cases skills with
  | false => simp [patchRecompute]
  | true =>
    unfold patchRecompute andThen awaitAll settle
    cases h0 : env.secondSettlesFirst <;>
      cases h1 : env.recompute (.calculateSingleCandidateScoreMultipleSubjects c._id) <;>
      cases h2 : env.recompute (.calculateAllExpertsScoresMultipleSubjects c.subjects) <;>
      cases h3 : env.recompute (.calculateAverageRelevancyScoreSingleCandidate c._id) <;>
      cases h4 : env.recompute .calculateAverageScoresAllExperts <;>
      simp [phase, Recompute.isPairScore, h1, h2, h3, h4]

/-- C6. Whenever one of the three candidate mutation handlers reaches
recomputation, its effects are in pipeline order: the committing write is the
first effect, the storage writes the handler waits for come before the single
200 response, the response before the pair-score recomputations, these before
the aggregate recomputations, and an aggregate recomputation is started only
when every pair-score recomputation the handler started has resolved. Writes
still in flight when the guarded `Promise.all` of the single deletion rejected
are not part of the trace (they are the `pending` writes of the outcome), and
nothing is asserted about when they commit. -/
theorem handlers_pipeline_order (env : Env) (db : Db) (id : ObjectId)
    (parsed : Except Thrown Updates) :
    (invocations (patchCandidate env db id parsed).trace ≠ [] →
      PipelineOrdered (.candidateFindByIdAndUpdate id) (patchCandidate env db id parsed).trace) ∧
    (invocations (deleteCandidate env db id).trace ≠ [] →
      PipelineOrdered (.candidateFindByIdAndDelete id) (deleteCandidate env db id).trace) ∧
    (invocations (deleteAllCandidates env db).trace ≠ [] →
      PipelineOrdered .candidateDeleteMany (deleteAllCandidates env db).trace) := by
  refine ⟨?_, ?_, ?_⟩
  · intro h
    cases parsed with
    | error e =>
      exfalso
      apply h
      unfold patchCandidate
      split <;> rfl
    | ok u =>
      cases hv : env.isValidObjectId id with
      | false => simp [patchCandidate, hv, invocations] at h
      | true =>
        cases hk : u.noKeys with
        | true => simp [patchCandidate, hv, hk, invocations] at h
        | false =>
          cases hdup : duplicateCheck env db id u with
          | some e => simp [patchCandidate, hv, hk, hdup, invocations] at h
          | none =>
            cases hupd : env.candidateFindByIdAndUpdate with
            | some e => simp [patchCandidate, hv, hk, hdup, hupd, invocations] at h
            | none =>
              cases hdoc : findById id db.candidates with
              | none => simp [patchCandidate, hv, hk, hdup, hupd, hdoc, invocations] at h
              | some doc =>
                rw [patchCandidate_eq hv hk hdup hupd hdoc]
                obtain ⟨hge, hsorted, hagg⟩ := patchRecompute_ordered env u.skills.isSome doc
                have := pipelineOrdered_of_parts (.candidateFindByIdAndUpdate id) []
                  (patchRecompute env u.skills.isSome doc).1 "Candidate updated successfully"
                  (by simp) hge hsorted hagg
                simpa using this
  · intro h
    cases hv : env.isValidObjectId id with
    | false => simp [deleteCandidate, hv, invocations] at h
    | true =>
      cases hdel : env.candidateFindByIdAndDelete with
      | some e => simp [deleteCandidate, hv, hdel, invocations] at h
      | none =>
        cases hdoc : findById id db.candidates with
        | none => simp [deleteCandidate, hv, hdel, hdoc, invocations] at h
        | some doc =>
          rw [(deleteCandidate_trace hv hdel hdoc).1]
          obtain ⟨hge, hsorted, hagg⟩ := deleteRecompute_ordered env doc.subjects
          exact pipelineOrdered_of_parts _ _ _ _ (commits_phase _ _) hge hsorted hagg
  · intro h
    cases h1 : env.candidateFind with
    | some e => simp [deleteAllCandidates, h1, invocations] at h
    | none =>
      by_cases hne : db.candidates = []
      · simp [deleteAllCandidates, h1, hne, invocations] at h
      · cases h2 : env.candidateDeleteMany with
        | some e => simp [deleteAllCandidates, h1, h2, hne, invocations] at h
        | none =>
          cases hth : (settleAll env (settleOrder env.settleRank
              [.subjectUpdateMany, .applicationDeleteMany, .expertUpdateMany])).thrown with
          | some e =>
            simp [deleteAllCandidates, h1, h2, hth, hne, invocations_append,
              commits_invocations, invocations] at h
          | none =>
            have htrace : (deleteAllCandidates env db).trace =
                [.write .candidateDeleteMany] ++
                  commits bulkWrite (settleAll env (settleOrder env.settleRank
                    [.subjectUpdateMany, .applicationDeleteMany, .expertUpdateMany])).committed ++
                  [.respond 200 "All candidates successfully deleted"] ++
                  (deleteRecompute env (flatSubjects db.candidates)).1 := by
              simp [deleteAllCandidates, h1, h2, hth, hne, flatSubjects_selectNoPassword]
            rw [htrace]
            obtain ⟨hge, hsorted, hagg⟩ :=
              deleteRecompute_ordered env (flatSubjects db.candidates)
            exact pipelineOrdered_of_parts _ _ _ _ (commits_phase _ _) hge hsorted hagg

/-- Witness of C6: the three handlers on the sample store, each reaching
recomputation, and a single deletion whose `Subject.updateMany` rejects while
`Application.deleteMany` is still in flight: that write is pending, outside the
ordered trace. -/
theorem handlers_pipeline_order_witness :
    (invocations (patchCandidate quietEnv sampleDb 1 (.ok skillsUpdate)).trace ≠ [] ∧
      PipelineOrdered (.candidateFindByIdAndUpdate 1)
        (patchCandidate quietEnv sampleDb 1 (.ok skillsUpdate)).trace) ∧
    (invocations (deleteCandidate quietEnv sampleDb 1).trace ≠ [] ∧
      PipelineOrdered (.candidateFindByIdAndDelete 1)
        (deleteCandidate quietEnv sampleDb 1).trace) ∧
    (invocations (deleteAllCandidates quietEnv sampleDb).trace ≠ [] ∧
      PipelineOrdered .candidateDeleteMany (deleteAllCandidates quietEnv sampleDb).trace) ∧
    (invocations (deleteCandidate earlyRejectingEnv sampleDb 1).trace ≠ [] ∧
      (deleteCandidate earlyRejectingEnv sampleDb 1).pending = [.applicationDeleteManyOf 1] ∧
      PipelineOrdered (.candidateFindByIdAndDelete 1)
        (deleteCandidate earlyRejectingEnv sampleDb 1).trace) :=
  ⟨⟨by decide,
      (handlers_pipeline_order quietEnv sampleDb 1 (.ok skillsUpdate)).1 (by decide)⟩,
    ⟨by decide,
      (handlers_pipeline_order quietEnv sampleDb 1 (.ok skillsUpdate)).2.1 (by decide)⟩,
    ⟨by decide,
      (handlers_pipeline_order quietEnv sampleDb 1 (.ok skillsUpdate)).2.2 (by decide)⟩,
    ⟨by decide, by decide,
      (handlers_pipeline_order earlyRejectingEnv sampleDb 1 (.ok skillsUpdate)).2.1
        (by decide)⟩⟩

/-! ### References left behind by a deletion -/

theorem updatePath_applicants (strict : Bool) (f : List Elem → List Elem) (s : Subject) :
    (updatePath strict .candidates f s).arrays .applicants = s.arrays .applicants ∧
      (updatePath strict .candidates f s)._id = s._id := by
  unfold updatePath
  split <;> simp

/-- The single deletion never changes the `applicants` path of any Subject. -/
theorem deleteCandidate_applicants_unchanged (env : Env) (db : Db) (id : ObjectId) :
    (deleteCandidate env db id).db.subjects.map (fun s => (s._id, s.arrays .applicants)) =
      db.subjects.map (fun s => (s._id, s.arrays .applicants)) := by
  unfold deleteCandidate
  split
  · rfl
  · split
    · rfl
    · split
      · rfl
      · dsimp only
        split
        · simp only [subjectUpdateManyPull, List.map_map]
          apply List.map_congr_left
          intro s _
          simp only [Function.comp]
          split
          · simp [updatePath_applicants]
          · rfl
        · rfl

/-- C7 fails on the code: candidate 1 is deleted, every cleanup write commits
and the response is 200; no Application of candidate 1 remains, but the
`applicants` path of subjects 10 and 11 still holds candidate 1, with mongoose
strict mode and without it (where only the `candidates` path is pulled). -/
theorem delete_leaves_applicant_reference :
    ((deleteCandidate quietEnv sampleDb 1).trace =
        [.write (.candidateFindByIdAndDelete 1), .write (.subjectUpdateManyPull [10, 11] 1),
          .write (.applicationDeleteManyOf 1), .respond 200 "Candidate deleted successfully",
          .invoke (.calculateAllExpertsScoresMultipleSubjects [10, 11]),
          .resolved (.calculateAllExpertsScoresMultipleSubjects [10, 11]),
          .invoke .calculateAverageScoresAllExperts,
          .resolved .calculateAverageScoresAllExperts] ∧
      (deleteCandidate quietEnv sampleDb 1).db.candidates = [bina] ∧
      (deleteCandidate quietEnv sampleDb 1).db.applications = [⟨2, 11⟩] ∧
      (deleteCandidate quietEnv sampleDb 1).db.subjects.map
          (fun s => (s._id, s.arrays .applicants)) =
        [(10, [.oid 1]), (11, [.oid 1, .oid 2])]) ∧
    ((deleteCandidate looseEnv sampleDb 1).db.applications = [⟨2, 11⟩] ∧
      (deleteCandidate looseEnv sampleDb 1).db.subjects.map
          (fun s => (s._id, s.arrays .candidates)) =
        [(10, []), (11, [.sub 2])] ∧
      (deleteCandidate looseEnv sampleDb 1).db.subjects.map
          (fun s => (s._id, s.arrays .applicants)) =
        [(10, [.oid 1]), (11, [.oid 1, .oid 2])]) := by
  decide

end CandidateRoutes

/-! ## Properties of the authentication middleware -/

namespace AuthMiddleware

/-- C8 fails on the code: `config.priority` ranks superAdmin above admin, yet
`checkAuth("admin")` answers 403 and never calls `next` for a verified token
whose role is superadmin (or superAdmin); only the role admin is admitted. -/
theorem checkAuth_admin_rejects_superadmin :
    priority "admin" = some 1 ∧ priority "superAdmin" = some 2 ∧
    checkAuth sampleVerify (some "admin") (cookieRequest "root") =
      ⟨0, [⟨403, "Unauthorized access", "FORBIDDEN"⟩], none⟩ ∧
    checkAuth sampleVerify (some "admin") (cookieRequest "boss") =
      ⟨0, [⟨403, "Unauthorized access", "FORBIDDEN"⟩], none⟩ ∧
    checkAuth sampleVerify (some "admin") (cookieRequest "adm") =
      ⟨1, [], some ⟨7, some "admin"⟩⟩ := by
  decide

theorem extractToken_error_iff (req : Request) :
    (∃ r, extractToken req = .error r) ↔
      truthy (req.headers "isMobile") = true ∧
        (req.headers "authorization" = none ∨
          ∃ h, req.headers "authorization" = some h ∧ startsWithBearer h = false) := by
  unfold extractToken
  cases hm : truthy (req.headers "isMobile") with
  | false =>
    simp only [Bool.false_eq_true, if_false, false_and, iff_false, not_exists]
    intro r
    split <;> simp
  | true =>
    simp only [if_true, true_and]
    cases ha : req.headers "authorization" with
    | none => simp
    | some h =>
      by_cases hb : startsWithBearer h = true
      · have hne : h ≠ "" := by
          rintro rfl
          revert hb
          decide
        simp [hb, hne]
      · simp [hb]

theorem extractToken_error_status (req : Request) (r : ErrorResponse)
    (h : extractToken req = .error r) : r.status = 401 := by
  unfold extractToken at h
  split at h
  · split at h
    · cases h; rfl
    · split at h
      · cases h; rfl
      · cases h
  · split at h <;> cases h

/-- C10. For every role argument and request, `checkAuth(role)` calls `next`
(once, with `req.user` set to the verified payload and no response sent)
exactly when `verifyToken` returns a payload for the extracted token and the
role is empty or equals the payload's role. Otherwise `next` is not called and
exactly one error response is sent: 401 exactly when the mobile Authorization
header is missing or does not start with "Bearer " or the token does not
verify, and 403 exactly when the token verifies but the role differs. -/
theorem checkAuth_outcome (verifyToken : Option String → Option Payload)
    (role : Option String) (req : Request) :
    ((checkAuth verifyToken role req).nextCalls = 1 ↔
      ∃ token payload, extractToken req = .ok token ∧ verifyToken token = some payload ∧
        (truthy role = false ∨ payload.role = role)) ∧
    (∀ token payload, extractToken req = .ok token → verifyToken token = some payload →
      (truthy role = false ∨ payload.role = role) →
      checkAuth verifyToken role req = ⟨1, [], some payload⟩) ∧
    ((¬ ∃ token payload, extractToken req = .ok token ∧ verifyToken token = some payload ∧
        (truthy role = false ∨ payload.role = role)) →
      (checkAuth verifyToken role req).nextCalls = 0 ∧
      (checkAuth verifyToken role req).user = none ∧
      ∃ resp, (checkAuth verifyToken role req).responses = [resp] ∧
        (resp.status = 401 ∨ resp.status = 403) ∧
        (resp.status = 401 ↔
          (truthy (req.headers "isMobile") = true ∧
            (req.headers "authorization" = none ∨
              ∃ h, req.headers "authorization" = some h ∧ startsWithBearer h = false)) ∨
          ∃ token, extractToken req = .ok token ∧ verifyToken token = none) ∧
        (resp.status = 403 ↔
          ∃ token payload, extractToken req = .ok token ∧ verifyToken token = some payload ∧
            truthy role = true ∧ payload.role ≠ role)) := by
  rw [← extractToken_error_iff]
  unfold checkAuth
  cases hx : extractToken req with
  | error r =>
    have hst := extractToken_error_status req r hx
    simp [hst]
  | ok token =>
    have hall : ∀ (Q : Option String → Payload → Prop),
        (∀ t p, token = t → Q t p) ↔ (∀ p, Q token p) :=
      fun Q => ⟨fun h p => h token p rfl, fun h t p e => e ▸ h p⟩
    cases hvt : verifyToken token with
    | none => simp [hvt, hall]
    | some payload =>
      by_cases hr : truthy role = true
      · by_cases hp : payload.role = role
        · simp [hvt, hr, hp, hall]
        · simp [hvt, hr, hp, hall]
      · simp [hvt, hr, hall]

end AuthMiddleware

/-! ## Properties of the error-handling middleware -/

namespace App

/-- Whenever `errors` is absent or has a first entry, the middleware returns
after exactly one response: 400 VALIDATION_ERROR when the first entry has a
message, else the operational answer, else 500 UNHANDLED_ERROR. -/
theorem errorMiddleware_responds (error : JsError) (h : error.errors ≠ some []) :
    (errorMiddleware error).result = .ok () ∧
    ∃ resp, (errorMiddleware error).responses = [resp] ∧
      ((∃ first rest, error.errors = some (first :: rest) ∧ truthy first.message = true) →
        resp = ⟨400, ((error.errors.getD []).head?.bind (fun i => i.message)).getD "",
          some "VALIDATION_ERROR", none⟩) ∧
      ((¬ ∃ first rest, error.errors = some (first :: rest) ∧ truthy first.message = true) →
        (error.isOperational = true →
          resp = ⟨statusOr500 error.statusCode, messageOrDefault error.message,
            error.errorCode, error.data⟩) ∧
        (error.isOperational = false →
          resp = ⟨500, "Internal Server Error", some "UNHANDLED_ERROR", none⟩)) := by
  unfold errorMiddleware
  cases he : error.errors with
  | none =>
    cases ho : error.isOperational <;> simp [answerByKind, ho]
  | some l =>
    cases l with
    | nil => exact absurd he h
    | cons first rest =>
      by_cases hm : truthy first.message = true
      · simp [hm]
      · cases ho : error.isOperational <;> simp [hm, answerByKind, ho]

/-- C11 fails on the code: for an error whose `errors` property is an empty
array the middleware sends no response and throws a TypeError, while the same
error without the property is answered once with its own status. -/
theorem errorMiddleware_throws_on_empty_errors :
    emptyErrors.errors = some [] ∧
    (errorMiddleware emptyErrors).responses = [] ∧
    (errorMiddleware emptyErrors).result = .error (.typeError "message") ∧
    (errorMiddleware noErrors).responses =
      [⟨404, "Candidate not found", some "CANDIDATE_NOT_FOUND", none⟩] ∧
    (errorMiddleware noErrors).result = .ok () :=
  ⟨rfl, by decide, rfl, by decide, rfl⟩

end App
